import Mathlib

set_option maxRecDepth 100000

/-!
Verification of the credential-extraction parser of `oxaam_automation.py`
(`OxaamAutomation.extract_credentials_from_html`).

The extractor is a pure function over the page markup (plus the wall-clock
reading used for the `retrieved_at` field, which we pass explicitly as a
`now` argument).  Strings are modelled as `List Char`; each Python regex
used by the source is hand-translated into an equivalent deterministic
scanner over `List Char`, following the leftmost-match / greedy-with-
backtracking semantics of the `re` module for that particular pattern.
-/

namespace Oxaam

/-- Strings are lists of characters. -/
abbrev Str := List Char

/-- Lower-casing, as Python `str.lower` restricted to the ASCII range
(`Char.toLower` is the identity beyond ASCII). -/
def lowerL (s : Str) : Str := s.map Char.toLower

/-- The whitespace class of Python `\s` / `str.strip` (ASCII part). -/
def isWs (c : Char) : Bool :=
  c == ' ' || c == '\t' || c == '\n' || c == '\r' || c == '\x0b' || c == '\x0c'

/-- `hasPref pat s` : `pat` is a leading segment of `s`. -/
def hasPref : Str → Str → Bool
  | [], _ => true
  | _ :: _, [] => false
  | p :: ps, c :: cs => p == c && hasPref ps cs

/-- `hasSub pat s` : `pat` occurs contiguously somewhere in `s`
(Python's `pat in s`). -/
def hasSub (pat : Str) : Str → Bool
  | [] => hasPref pat []
  | c :: r => hasPref pat (c :: r) || hasSub pat r

/-- Case-insensitive leading-segment test; `pat` is given lower-case. -/
def ciHasPref (pat s : Str) : Bool := hasPref pat (lowerL s)

/-- Consume a literal, case-sensitively. -/
def dropPref (pat s : Str) : Option Str :=
  if hasPref pat s then some (s.drop pat.length) else none

/-- Consume a literal, case-insensitively (`pat` given lower-case). -/
def dropPrefCI (pat s : Str) : Option Str :=
  if ciHasPref pat s then some (s.drop pat.length) else none

/-- Split `s` at the first (leftmost) case-insensitive occurrence of `pat`,
returning the text before it and the text after it.  This is the
lazy-quantifier step `(.*?)pat` of the Python patterns. -/
def splitOnceCI (pat : Str) : Str → Option (Str × Str)
  | [] => if ciHasPref pat [] then some ([], []) else none
  | c :: r =>
    if ciHasPref pat (c :: r) then some ([], (c :: r).drop pat.length)
    else
      match splitOnceCI pat r with
      | some (pre, post) => some (c :: pre, post)
      | none => none

/-- Leftmost-match search: try the anchored matcher at every position of
the input, left to right — the scanning loop of `re.search`.  (All the
patterns below need at least one character, so the end-of-string position
never matches and is omitted.) -/
def firstMatch (tryAt : Str → Option α) : Str → Option α
  | [] => none
  | c :: rest =>
    match tryAt (c :: rest) with
    | some v => some v
    | none => firstMatch tryAt rest

/-- Anchored match of `<details[^>]*>(.*?)</details>` (DOTALL, IGNORECASE):
the literal `<details`, everything up to the first `>`, then the content up
to the first `</details>`.  Returns the captured content and the remainder
of the document after the closing tag. -/
def tryDetailsAt (s : Str) : Option (Str × Str) :=
  match dropPrefCI "<details".data s with
  | none => none
  | some r1 =>
    match r1.dropWhile (fun c => c != '>') with
    | [] => none
    | _ :: r3 => splitOnceCI "</details>".data r3

/-- Scanning loop of `re.findall` for the details pattern: on a match,
resume after the closing tag; otherwise advance one character.  Fuelled by
the input length (each successful step consumes at least one character, so
the fuel never runs out when initialised with the input length). -/
def splitDetailsAux : Nat → Str → List Str
  | 0, _ => []
  | _ + 1, [] => []
  | fuel + 1, c :: rest =>
    match tryDetailsAt (c :: rest) with
    | some (content, after) => content :: splitDetailsAux fuel after
    | none => splitDetailsAux fuel rest

/-- `re.findall(r'<details[^>]*>(.*?)</details>', html, re.DOTALL | re.IGNORECASE)`. -/
def splitDetails (doc : Str) : List Str := splitDetailsAux doc.length doc

/-- Anchored match of the service-name pattern
`<strong>([^<]+?(?:Premium|PREMIUM|PRO|Plus|AI|TV\+|Music|Games)?[^<]*?)</strong>`
(case-sensitive).  Because every quantified piece of the group is `[^<]`,
the group always captures exactly the run of non-`<` characters after
`<strong>`; the match succeeds iff that run is non-empty and is followed
immediately by `</strong>`.  The optional keyword alternation never changes
the captured text. -/
def tryStrong (s : Str) : Option Str :=
  match dropPref "<strong>".data s with
  | none => none
  | some r1 =>
    let g := r1.takeWhile (fun c => c != '<')
    if g = [] then none
    else if hasPref "</strong>".data (r1.drop g.length) then some g else none

/-- Python `str.strip()` (ASCII whitespace). -/
def pyStrip (s : Str) : Str :=
  ((s.dropWhile isWs).reverse.dropWhile isWs).reverse

/-- One step of Python `str.replace('&nbsp;', ' ')`: left-to-right,
non-overlapping.  Fuelled by the input length. -/
def replaceNbspAux : Nat → Str → Str
  | 0, s => s
  | _ + 1, [] => []
  | fuel + 1, c :: rest =>
    if hasPref "&nbsp;".data (c :: rest) then
      ' ' :: replaceNbspAux fuel ((c :: rest).drop 6)
    else c :: replaceNbspAux fuel rest

/-- Python `str.replace('&nbsp;', ' ')`. -/
def replaceNbsp (s : Str) : Str := replaceNbspAux s.length s

/-- The decimal digit characters, for rendering the 1-based block index in
the `f"Service_{idx}"` placeholder. -/
def digitChar (d : Nat) : Char :=
  if d = 0 then '0' else if d = 1 then '1' else if d = 2 then '2'
  else if d = 3 then '3' else if d = 4 then '4' else if d = 5 then '5'
  else if d = 6 then '6' else if d = 7 then '7' else if d = 8 then '8' else '9'

/-- Decimal rendering of a natural number (fuelled). -/
def natDigitsAux : Nat → Nat → Str
  | 0, _ => []
  | fuel + 1, n =>
    if n < 10 then [digitChar n]
    else natDigitsAux fuel (n / 10) ++ [digitChar (n % 10)]

/-- Decimal rendering of a natural number, as Python string formatting
renders the block index. -/
def natToStr (n : Nat) : Str := natDigitsAux (n + 1) n

/-- Service-name resolution: the first `<strong>…</strong>` capture,
stripped, with `&nbsp;` normalised to a space; positional placeholder
`Service_<idx>` otherwise.  (The source applies the `&nbsp;` replacement
after the fallback choice, so it covers both branches.) -/
def serviceOf (idx : Nat) (b : Str) : Str :=
  replaceNbsp
    (match firstMatch tryStrong b with
     | some g => pyStrip g
     | none => "Service_".data ++ natToStr idx)

/-- The character class `[a-zA-Z0-9._%+-]` of the email local part. -/
def isLocalChar (c : Char) : Bool :=
  c.isAlpha || c.isDigit || c == '.' || c == '_' || c == '%' || c == '+' || c == '-'

/-- The character class `[a-zA-Z0-9.-]` of the email domain part. -/
def isDomainChar (c : Char) : Bool :=
  c.isAlpha || c.isDigit || c == '.' || c == '-'

/-- Maximal run of ASCII letters of `D` starting at position `j`. -/
def letterRunFrom (D : Str) (j : Nat) : Str :=
  (D.drop j).takeWhile Char.isAlpha

/-- A position `j` of the domain run `D` at which the backtracking of
`[a-zA-Z0-9.-]+\.[a-zA-Z]{2,}` can succeed: a dot preceded by at least one
domain character and followed by at least two letters. -/
def dotOk (D : Str) (j : Nat) : Bool :=
  decide (1 ≤ j) && (D.get? j == some '.') &&
    decide (2 ≤ (letterRunFrom D (j + 1)).length)

/-- The split position the backtracking engine settles on: the greedy
`[a-zA-Z0-9.-]+` is shrunk from the right, so the largest workable dot
position wins. -/
def bestDot (D : Str) : Option Nat :=
  ((List.range D.length).filter (dotOk D)).getLast?

/-- Anchored match of the bare address pattern
`[a-zA-Z0-9._%+-]+@[a-zA-Z0-9.-]+\.[a-zA-Z]{2,}`: maximal local-part run,
a literal `@`, then the greedy-with-backtracking domain split described at
`bestDot`.  Returns the captured address. -/
def matchEmailAt (s : Str) : Option Str :=
  let loc := s.takeWhile isLocalChar
  if loc = [] then none
  else
    match s.drop loc.length with
    | '@' :: r =>
      let D := r.takeWhile isDomainChar
      match bestDot D with
      | some j => some (loc ++ '@' :: (D.take (j + 1) ++ letterRunFrom D (j + 1)))
      | none => none
    | _ => none

/-- Anchored match of the quoted form `…@…"` used by the pattern
`data-copy="<address>"`: because the closing `"` must follow the letters of
the TLD and no shorter backtracking alternative can ever be followed by a
quote, the attribute value must be exactly `local@domain`, with the text
after the last dot of the domain run consisting of at least two letters and
the quote following immediately. -/
def matchEmailQuoted (s : Str) : Option Str :=
  let loc := s.takeWhile isLocalChar
  if loc = [] then none
  else
    match s.drop loc.length with
    | '@' :: r =>
      let D := r.takeWhile isDomainChar
      match ((List.range D.length).filter (fun j => D.get? j == some '.')).getLast? with
      | some j =>
        if decide (1 ≤ j) && (D.drop (j + 1)).all Char.isAlpha &&
            decide (2 ≤ D.length - (j + 1)) && hasPref ['"'] (r.drop D.length)
        then some (loc ++ '@' :: D) else none
      | none => none
    | _ => none

/-- Anchored match of `Email\s*➜\s*<span>([^<]+)</span>` (IGNORECASE). -/
def tryEmail1 (s : Str) : Option Str :=
  match dropPrefCI "email".data s with
  | none => none
  | some r1 =>
    match dropPref "➜".data (r1.dropWhile isWs) with
    | none => none
    | some r3 =>
      match dropPrefCI "<span>".data (r3.dropWhile isWs) with
      | none => none
      | some r5 =>
        let g := r5.takeWhile (fun c => c != '<')
        if g = [] then none
        else if ciHasPref "</span>".data (r5.drop g.length) then some g else none

/-- Anchored match of
`Email\s*➜\s*([a-zA-Z0-9._%+-]+@[a-zA-Z0-9.-]+\.[a-zA-Z]{2,})` (IGNORECASE). -/
def tryEmail2 (s : Str) : Option Str :=
  match dropPrefCI "email".data s with
  | none => none
  | some r1 =>
    match dropPref "➜".data (r1.dropWhile isWs) with
    | none => none
    | some r3 => matchEmailAt (r3.dropWhile isWs)

/-- Anchored match of
`data-copy="([a-zA-Z0-9._%+-]+@[a-zA-Z0-9.-]+\.[a-zA-Z]{2,})"` (IGNORECASE). -/
def tryEmail3 (s : Str) : Option Str :=
  match dropPrefCI "data-copy=\"".data s with
  | none => none
  | some r1 => matchEmailQuoted r1

/-- Email resolution: the three patterns are searched over the whole block
in order; the first one that matches anywhere wins and its capture is
stripped (the loop breaks on a match even when the stripped value is
empty, but an empty stripped value is indistinguishable from no match in
the record assembly, which only tests emptiness). -/
def emailOf (b : Str) : Str :=
  match firstMatch tryEmail1 b with
  | some g => pyStrip g
  | none =>
    match firstMatch tryEmail2 b with
    | some g => pyStrip g
    | none =>
      match firstMatch tryEmail3 b with
      | some g => pyStrip g
      | none => []

/-- Anchored match of `Password\s*➜\s*<span>([^<]+)</span>` (IGNORECASE). -/
def tryPw1 (s : Str) : Option Str :=
  match dropPrefCI "password".data s with
  | none => none
  | some r1 =>
    match dropPref "➜".data (r1.dropWhile isWs) with
    | none => none
    | some r3 =>
      match dropPrefCI "<span>".data (r3.dropWhile isWs) with
      | none => none
      | some r5 =>
        let g := r5.takeWhile (fun c => c != '<')
        if g = [] then none
        else if ciHasPref "</span>".data (r5.drop g.length) then some g else none

/-- Anchored match of `data-copy="([^"]+)"` (case-sensitive, as in the
password scan of the source).  Returns the captured value and the
remainder after the closing quote, where `re.findall` resumes. -/
def tryDataCopy (s : Str) : Option (Str × Str) :=
  match dropPref "data-copy=\"".data s with
  | none => none
  | some r1 =>
    let v := r1.takeWhile (fun c => c != '"')
    if v = [] then none
    else if hasPref ['"'] (r1.drop v.length) then some (v, r1.drop (v.length + 1))
    else none

/-- Scanning loop of `re.findall(r'data-copy="([^"]+)"', block)`. -/
def dataCopyAux : Nat → Str → List Str
  | 0, _ => []
  | _ + 1, [] => []
  | fuel + 1, c :: rest =>
    match tryDataCopy (c :: rest) with
    | some (v, after) => v :: dataCopyAux fuel after
    | none => dataCopyAux fuel rest

/-- All `data-copy` attribute values of the block, in document order. -/
def dataCopyValues (b : Str) : List Str := dataCopyAux b.length b

/-- Password method 1: the `Password ➜ <span>…</span>` capture, stripped. -/
def passwordM1 (b : Str) : Str :=
  match firstMatch tryPw1 b with
  | some g => pyStrip g
  | none => []

/-- Password method 2: the first `data-copy` value containing no `@` and
of raw length `> 5`, stripped.  (The length test precedes the strip, as in
the source; the loop breaks on the first candidate even if it strips to
the empty string.) -/
def passwordM2 (b : Str) : Str :=
  match (dataCopyValues b).find? (fun v => !v.contains '@' && decide (5 < v.length)) with
  | some v => pyStrip v
  | none => []

/-- Anchored match of `Password\s*➜\s*([^\s<]+)` (IGNORECASE). -/
def tryPw3 (s : Str) : Option Str :=
  match dropPrefCI "password".data s with
  | none => none
  | some r1 =>
    match dropPref "➜".data (r1.dropWhile isWs) with
    | none => none
    | some r3 =>
      let g := (r3.dropWhile isWs).takeWhile (fun c => !isWs c && c != '<')
      if g = [] then none else some g

/-- Password method 3: the bare token after `Password ➜`, stripped,
accepted only when it contains no `@`. -/
def passwordM3 (b : Str) : Str :=
  match firstMatch tryPw3 b with
  | some g =>
    let p := pyStrip g
    if p.contains '@' then [] else p
  | none => []

/-- Password resolution: methods 1–3 in order; each later method runs only
when the previous ones produced the empty string (Python truthiness of the
accumulated `password` variable). -/
def passwordOf (b : Str) : Str :=
  if passwordM1 b ≠ [] then passwordM1 b
  else if passwordM2 b ≠ [] then passwordM2 b
  else passwordM3 b

/-- Anchored match of `href="([^"]*official\.php[^"]*)"` (case-sensitive):
the quoted value must contain `official.php` and be closed by a quote; the
capture is the whole quoted value. -/
def tryHref (s : Str) : Option Str :=
  match dropPref "href=\"".data s with
  | none => none
  | some r1 =>
    let v := r1.takeWhile (fun c => c != '"')
    if hasSub "official.php".data v && hasPref ['"'] (r1.drop v.length) then some v
    else none

/-- Official-link resolution: the first matching `href` value, prefixed
with the fixed base origin unless it already starts with `http`; empty
when no such `href` exists. -/
def officialOf (b : Str) : Str :=
  match firstMatch tryHref b with
  | some v => if hasPref "http".data v then v else "https://www.oxaam.com/".data ++ v
  | none => []

/-- Cookie-session indicator:
`'cookie' in block.lower() or 'cookiejson' in block.lower()`. -/
def isCookie (b : Str) : Bool :=
  hasSub "cookie".data (lowerL b) || hasSub "cookiejson".data (lowerL b)

/-- The record assembled per block (the keys of the Python dict). -/
structure AccountInfo where
  service : Str
  email : Str
  password : Str
  official_website : Str
  type : Str
  retrieved_at : Str
deriving DecidableEq, Repr

/-- The non-clock fields of a record. -/
def AccountInfo.core (r : AccountInfo) : Str × Str × Str × Str × Str :=
  (r.service, r.email, r.password, r.official_website, r.type)

/-- The body of the per-block loop: resolve the fields and emit a record
iff the resolved email, the resolved password, or the cookie indicator is
non-empty/true.  `idx` is the 1-based block index, `now` the clock reading
that the source takes from `datetime.now().strftime(...)`. -/
def processBlock (idx : Nat) (b now : Str) : Option AccountInfo :=
  if emailOf b ≠ [] ∨ passwordOf b ≠ [] ∨ isCookie b then
    some
      { service := serviceOf idx b
        email := if emailOf b ≠ [] then emailOf b else "Cookie-based login".data
        password := if passwordOf b ≠ [] then passwordOf b else "N/A".data
        official_website := if officialOf b ≠ [] then officialOf b else "N/A".data
        type := if isCookie b then "Cookie-based".data else "Email/Password".data
        retrieved_at := now }
  else none

/-- The `for idx, block in enumerate(details_blocks, 1)` loop. -/
def extractAux (now : Str) : Nat → List Str → List AccountInfo
  | _, [] => []
  | idx, b :: rest =>
    match processBlock idx b now with
    | some acc => acc :: extractAux now (idx + 1) rest
    | none => extractAux now (idx + 1) rest

/-- `OxaamAutomation.extract_credentials_from_html`, with the clock reading
made an explicit argument. -/
def extract_credentials_from_html (html_content now : Str) : List AccountInfo :=
  extractAux now 1 (splitDetails html_content)

/-- The enumerated block list (1-based, document order). -/
def withIdx : Nat → List Str → List (Nat × Str)
  | _, [] => []
  | i, b :: r => (i, b) :: withIdx (i + 1) r

/-- Per-block bodies as fallible computations: the `try/except/continue`
of the source catches any fault raised inside one block's processing at
that block's boundary and moves on to the next block. -/
def runBlocks (f : Nat × Str → Except Unit (Option AccountInfo)) :
    List (Nat × Str) → List AccountInfo
  | [] => []
  | ib :: rest =>
    match f ib with
    | Except.error _ => runBlocks f rest
    | Except.ok none => runBlocks f rest
    | Except.ok (some r) => r :: runBlocks f rest

/-- Whether a fallible per-block body succeeded. -/
def isOkE (e : Except Unit (Option AccountInfo)) : Bool :=
  match e with
  | Except.ok _ => true
  | Except.error _ => false

/-! Concrete inputs used by the witnesses and counterexamples.  `ts0` and
`ts1` are two possible readings of `datetime.now().strftime("%Y-%m-%d %H:%M:%S")`. -/

def ts0 : Str := "2024-01-01 00:00:00".data

def ts1 : Str := "2024-01-01 00:00:01".data

/-- A block that contains both the cookie indicator and a resolvable email. -/
def c1block : Str := "cookie Email ➜ <span>a@b.com</span>".data

def c1doc : Str := "<details>cookie Email ➜ <span>a@b.com</span></details>".data

/-- The record the extractor emits for `c1doc`. -/
def c1rec : AccountInfo :=
  { service := "Service_1".data, email := "a@b.com".data, password := "N/A".data,
    official_website := "N/A".data, type := "Cookie-based".data, retrieved_at := ts0 }

def c2doc : Str := "<details>cookie</details><details>x</details>".data

/-- The two attribute orders of the password/email disambiguation example. -/
def bA : Str := "<p data-copy=\"a@b.com\" data-copy=\"Tr0ub4dor&3\"></p>".data

def bB : Str := "<p data-copy=\"Tr0ub4dor&3\" data-copy=\"a@b.com\"></p>".data

/-- A block resolved by password method 1 (the inline-span form). -/
def bC3w : Str := "Password ➜ <span>Secr3t!</span>".data

def c4doc : Str := "<details>cookie</details>".data

/-- The record the extractor emits for `c4doc` at clock reading `ts0`. -/
def c4rec : AccountInfo :=
  { service := "Service_1".data, email := "Cookie-based login".data, password := "N/A".data,
    official_website := "N/A".data, type := "Cookie-based".data, retrieved_at := ts0 }

/-- A block with a password signal only: no email, no cookie indicator. -/
def c5block : Str := "<p data-copy=\"abcdef\"></p>".data

def c5doc : Str := "<details><p data-copy=\"abcdef\"></p></details>".data

/-- The record the extractor emits for `c5doc`. -/
def c5rec : AccountInfo :=
  { service := "Service_1".data, email := "Cookie-based login".data,
    password := "abcdef".data, official_website := "N/A".data,
    type := "Email/Password".data, retrieved_at := ts0 }

def c6doc : Str :=
  "<details>cookie <a href=\"signup/official.php?x=1\">x</a></details><details>cookie</details>".data

/-- The second block of `c6doc`: cookie indicator, no `official.php` href. -/
def c6b2 : Str := "cookie".data

/-- The record the extractor emits for the second block of `c6doc`. -/
def c6rec2 : AccountInfo :=
  { service := "Service_2".data, email := "Cookie-based login".data, password := "N/A".data,
    official_website := "N/A".data, type := "Cookie-based".data, retrieved_at := ts0 }

def c7doc : Str :=
  ("<details><strong>A</strong><p data-copy=\"aaaaaa\"></p></details>" ++
   "<details><p data-copy=\"bbbbbb\"></p></details>" ++
   "<details><strong>C</strong><p data-copy=\"cccccc\"></p></details>").data

/-- The second block of `c7doc`: a signal but no recoverable label. -/
def c7b2 : Str := "<p data-copy=\"bbbbbb\"></p>".data

/-- The record the extractor emits for the second block of `c7doc`. -/
def c7rec2 : AccountInfo :=
  { service := "Service_2".data, email := "Cookie-based login".data,
    password := "bbbbbb".data, official_website := "N/A".data,
    type := "Email/Password".data, retrieved_at := ts0 }

/-- A document whose first disclosure block has empty inner content. -/
def c7empty : Str := "<details></details><details>x</details>".data

/-- A block whose `<strong>` label is whitespace only, plus a password signal. -/
def c10doc : Str := "<details><strong> </strong><p data-copy=\"secret99\"></p></details>".data

/-- The record the extractor emits for `c10doc`: its service name is empty. -/
def c10rec : AccountInfo :=
  { service := [], email := "Cookie-based login".data, password := "secret99".data,
    official_website := "N/A".data, type := "Email/Password".data, retrieved_at := ts0 }

/-! ## Helper lemmas -/

/-- Shape of an emitted record: every field as assembled by the source. -/
theorem processBlock_some {i : Nat} {b now : Str} {rec : AccountInfo}
    (h : processBlock i b now = some rec) :
    rec.service = serviceOf i b ∧
    rec.email = (if emailOf b ≠ [] then emailOf b else "Cookie-based login".data) ∧
    rec.password = (if passwordOf b ≠ [] then passwordOf b else "N/A".data) ∧
    rec.official_website = (if officialOf b ≠ [] then officialOf b else "N/A".data) ∧
    rec.type = (if isCookie b then "Cookie-based".data else "Email/Password".data) ∧
    rec.retrieved_at = now := by
  unfold processBlock at h
  split at h
  · injection h with h
    subst h
    exact ⟨rfl, rfl, rfl, rfl, rfl, rfl⟩
  · exact Option.noConfusion h

/-- A record is emitted for a block iff one of the three signals holds. -/
theorem processBlock_isSome (i : Nat) (b now : Str) :
    (processBlock i b now).isSome = true ↔
      (emailOf b ≠ [] ∨ passwordOf b ≠ [] ∨ isCookie b = true) := by
  unfold processBlock
  split
  · next h => exact iff_of_true rfl h
  · next h => exact iff_of_false (by simp) h

/-- At most one record per block. -/
theorem extractAux_length_le (now : Str) : ∀ (i : Nat) (bs : List Str),
    (extractAux now i bs).length ≤ bs.length := by
  intro i bs
  induction bs generalizing i with
  | nil => exact Nat.le_refl 0
  | cons b rest ih =>
    cases h : processBlock i b now with
    | some acc =>
      simp only [extractAux, h, List.length_cons]
      exact Nat.succ_le_succ (ih (i + 1))
    | none =>
      simp only [extractAux, h, List.length_cons]
      exact Nat.le_succ_of_le (ih (i + 1))

/-- One record per block exactly when every block carries a signal. -/
theorem extractAux_length_eq_iff (now : Str) : ∀ (i : Nat) (bs : List Str),
    (extractAux now i bs).length = bs.length ↔
      ∀ b ∈ bs, emailOf b ≠ [] ∨ passwordOf b ≠ [] ∨ isCookie b = true := by
  intro i bs
  induction bs generalizing i with
  | nil => simp [extractAux]
  | cons b rest ih =>
    cases h : processBlock i b now with
    | some acc =>
      have hs : emailOf b ≠ [] ∨ passwordOf b ≠ [] ∨ isCookie b = true :=
        (processBlock_isSome i b now).1 (by rw [h]; rfl)
      simp only [extractAux, h, List.length_cons, List.mem_cons]
      constructor
      · intro hl x hx
        rcases hx with rfl | hx
        · exact hs
        · exact (ih (i + 1)).1 (by omega) x hx
      · intro hall
        have := (ih (i + 1)).2 (fun x hx => hall x (Or.inr hx))
        omega
    | none =>
      have hs : ¬(emailOf b ≠ [] ∨ passwordOf b ≠ [] ∨ isCookie b = true) := by
        intro hc
        have hsome := (processBlock_isSome i b now).2 hc
        rw [h] at hsome
        exact absurd hsome (by simp)
      simp only [extractAux, h, List.length_cons, List.mem_cons]
      constructor
      · intro hl
        have hle := extractAux_length_le now (i + 1) rest
        omega
      · intro hall
        exact absurd (hall b (Or.inl rfl)) hs

/-- Every member of the output comes from some block via `processBlock`. -/
theorem mem_extractAux (now : Str) : ∀ (i : Nat) (bs : List Str) (rec : AccountInfo),
    rec ∈ extractAux now i bs → ∃ j b, b ∈ bs ∧ processBlock j b now = some rec := by
  intro i bs
  induction bs generalizing i with
  | nil => intro rec h; simp [extractAux] at h
  | cons b rest ih =>
    intro rec h
    cases hp : processBlock i b now with
    | some acc =>
      simp only [extractAux, hp, List.mem_cons] at h
      rcases h with rfl | h
      · exact ⟨i, b, List.mem_cons_self b rest, hp⟩
      · obtain ⟨j, b', hb', hj⟩ := ih (i + 1) rec h
        exact ⟨j, b', List.mem_cons_of_mem b hb', hj⟩
    | none =>
      simp only [extractAux, hp] at h
      obtain ⟨j, b', hb', hj⟩ := ih (i + 1) rec h
      exact ⟨j, b', List.mem_cons_of_mem b hb', hj⟩

/-- The non-clock fields of an emitted record do not depend on the clock. -/
theorem processBlock_core (i : Nat) (b t1 t2 : Str) :
    (processBlock i b t1).map AccountInfo.core =
      (processBlock i b t2).map AccountInfo.core := by
  by_cases hc : emailOf b ≠ [] ∨ passwordOf b ≠ [] ∨ isCookie b = true
  · simp [processBlock, hc, AccountInfo.core]
  · simp [processBlock, hc]

/-- The whole output, projected to the non-clock fields, does not depend
on the clock. -/
theorem extractAux_core (t1 t2 : Str) : ∀ (i : Nat) (bs : List Str),
    (extractAux t1 i bs).map AccountInfo.core =
      (extractAux t2 i bs).map AccountInfo.core := by
  intro i bs
  induction bs generalizing i with
  | nil => rfl
  | cons b rest ih =>
    have hcore := processBlock_core i b t1 t2
    cases h1 : processBlock i b t1 with
    | some a1 =>
      cases h2 : processBlock i b t2 with
      | some a2 =>
        rw [h1, h2] at hcore
        simp only [Option.map_some'] at hcore
        injection hcore with hcore
        simp only [extractAux, h1, h2, List.map_cons, hcore, ih (i + 1)]
      | none =>
        rw [h1, h2] at hcore
        simp at hcore
    | none =>
      cases h2 : processBlock i b t2 with
      | some a2 =>
        rw [h1, h2] at hcore
        simp at hcore
      | none =>
        simp only [extractAux, h1, h2]
        exact ih (i + 1)

/-- No digit character is an ampersand. -/
theorem digitChar_ne_amp (d : Nat) : digitChar d ≠ '&' := by
  unfold digitChar
  split_ifs <;> decide

/-- Decimal renderings never contain an ampersand. -/
theorem natDigitsAux_ne_amp : ∀ (fuel n : Nat), ∀ c ∈ natDigitsAux fuel n, c ≠ '&' := by
  intro fuel
  induction fuel with
  | zero => intro n c hc; simp [natDigitsAux] at hc
  | succ fuel ih =>
    intro n c hc
    unfold natDigitsAux at hc
    by_cases h : n < 10
    · rw [if_pos h] at hc
      simp only [List.mem_singleton] at hc
      subst hc
      exact digitChar_ne_amp n
    · rw [if_neg h] at hc
      rcases List.mem_append.1 hc with hc | hc
      · exact ih (n / 10) c hc
      · simp only [List.mem_singleton] at hc
        subst hc
        exact digitChar_ne_amp (n % 10)

/-- `str.replace('&nbsp;', ' ')` is the identity on ampersand-free text. -/
theorem replaceNbspAux_no_amp : ∀ (fuel : Nat) (s : Str),
    (∀ c ∈ s, c ≠ '&') → replaceNbspAux fuel s = s := by
  intro fuel
  induction fuel with
  | zero => intro s _; rfl
  | succ fuel ih =>
    intro s hs
    cases s with
    | nil => rfl
    | cons c rest =>
      have hc : c ≠ '&' := hs c (List.mem_cons_self c rest)
      have hb : ('&' == c) = false := beq_eq_false_iff_ne.2 (Ne.symm hc)
      have hpref : hasPref "&nbsp;".data (c :: rest) = false := by
        show (('&' == c) && hasPref "nbsp;".data rest) = false
        rw [hb, Bool.false_and]
      simp only [replaceNbspAux, hpref, Bool.false_eq_true, if_false]
      exact congrArg (c :: ·) (ih rest (fun x hx => hs x (List.mem_cons_of_mem c hx)))

/-- The positional placeholder is untouched by the `&nbsp;` normalisation. -/
theorem serviceOf_of_no_strong {i : Nat} {b : Str}
    (h : firstMatch tryStrong b = none) :
    serviceOf i b = "Service_".data ++ natToStr i := by
  unfold serviceOf
  rw [h]
  apply replaceNbspAux_no_amp
  intro c hc
  rcases List.mem_append.1 hc with hc | hc
  · exact (by decide : ∀ x ∈ "Service_".data, x ≠ '&') c hc
  · exact natDigitsAux_ne_amp (i + 1) i c hc

/-- A details match cannot start where `<details` is not a leading segment. -/
theorem tryDetailsAt_none {s : Str}
    (h : hasPref "<details".data (lowerL s) = false) :
    tryDetailsAt s = none := by
  unfold tryDetailsAt dropPrefCI ciHasPref
  rw [h]
  rfl

/-- A document with no case-insensitive occurrence of `<details` splits
into zero blocks. -/
theorem splitDetailsAux_none : ∀ (fuel : Nat) (s : Str),
    hasSub "<details".data (lowerL s) = false → splitDetailsAux fuel s = [] := by
  intro fuel
  induction fuel with
  | zero => intro s _; rfl
  | succ fuel ih =>
    intro s hs
    cases s with
    | nil => rfl
    | cons c rest =>
      have hs' : (hasPref "<details".data (lowerL (c :: rest)) ||
          hasSub "<details".data (lowerL rest)) = false := hs
      have h1 : hasPref "<details".data (lowerL (c :: rest)) = false :=
        (Bool.or_eq_false_iff.1 hs').1
      have h2 : hasSub "<details".data (lowerL rest) = false :=
        (Bool.or_eq_false_iff.1 hs').2
      simp only [splitDetailsAux, tryDetailsAt_none h1]
      exact ih rest h2

/-- Faulting blocks contribute nothing and leave the others untouched. -/
theorem runBlocks_filter (f : Nat × Str → Except Unit (Option AccountInfo)) :
    ∀ bs : List (Nat × Str),
      runBlocks f bs = runBlocks f (bs.filter (fun ib => isOkE (f ib))) := by
  intro bs
  induction bs with
  | nil => rfl
  | cons ib rest ih =>
    cases hf : f ib with
    | error e =>
      have : isOkE (f ib) = false := by rw [hf]; rfl
      simp only [runBlocks, hf, List.filter_cons, this, Bool.false_eq_true, if_false]
      exact ih
    | ok o =>
      have : isOkE (f ib) = true := by rw [hf]; rfl
      simp only [runBlocks, hf, List.filter_cons, this, if_true]
      cases o with
      | none => simp only [runBlocks, hf]; exact ih
      | some r => simp only [runBlocks, hf]; rw [ih]

/-- The extractor loop is the fault-free instance of `runBlocks`. -/
theorem extractAux_eq_runBlocks (now : Str) : ∀ (i : Nat) (bs : List Str),
    extractAux now i bs =
      runBlocks (fun ib => Except.ok (processBlock ib.1 ib.2 now)) (withIdx i bs) := by
  intro i bs
  induction bs generalizing i with
  | nil => rfl
  | cons b rest ih =>
    cases hp : processBlock i b now with
    | some acc => simp only [extractAux, withIdx, runBlocks, hp]; rw [ih (i + 1)]
    | none => simp only [extractAux, withIdx, runBlocks, hp]; exact ih (i + 1)

/-! ## Claims -/

/-- C1 counterexample: for the document `c1doc` the block both contains the
cookie indicator and resolves the email `a@b.com`, yet the emitted record's
type is `Cookie-based`, not `Email/Password` — so finding an email does not
force the `EmailPassword` classification, contrary to the claim. -/
theorem C1_counterexample :
    extract_credentials_from_html c1doc ts0 = [c1rec] ∧
    splitDetails c1doc = [c1block] ∧
    emailOf c1block ≠ [] ∧
    isCookie c1block = true ∧
    c1rec.type = "Cookie-based".data ∧
    c1rec.type ≠ "Email/Password".data := by
  decide

/-- C1 (amended): for every emitted record, the type is `Cookie-based` iff
the block's cookie indicator is true, and `Email/Password` iff it is false
— regardless of any resolved email or password; a resolved email only
affects the email field, never the type. -/
theorem C1_amended (i : Nat) (b now : Str) (rec : AccountInfo)
    (h : processBlock i b now = some rec) :
    (rec.type = "Cookie-based".data ↔ isCookie b = true) ∧
    (rec.type = "Email/Password".data ↔ isCookie b = false) := by
  obtain ⟨-, -, -, -, ht, -⟩ := processBlock_some h
  rcases Bool.eq_false_or_eq_true (isCookie b) with hc | hc <;> rw [hc] at ht ⊢
  · rw [if_pos rfl] at ht
    rw [ht]
    exact ⟨iff_of_true rfl rfl, iff_of_false (by decide) (by decide)⟩
  · rw [if_neg (by simp)] at ht
    rw [ht]
    exact ⟨iff_of_false (by decide) (by decide), iff_of_true rfl rfl⟩

/-- C1 witness: the amended rule evaluated on the cookie+email block. -/
theorem C1_witness : c1rec.type = "Cookie-based".data ↔ isCookie c1block = true :=
  (C1_amended 1 c1block ts0 c1rec (by decide)).1

/-- C2: a record is emitted for a block iff the resolved email, the
resolved password, or the cookie indicator is non-empty/true; the record
count never exceeds the block count, with equality iff every block yields
at least one of the three signals. -/
theorem C2_emission (doc now : Str) :
    (∀ i b, (processBlock i b now).isSome = true ↔
        (emailOf b ≠ [] ∨ passwordOf b ≠ [] ∨ isCookie b = true)) ∧
    (extract_credentials_from_html doc now).length ≤ (splitDetails doc).length ∧
    ((extract_credentials_from_html doc now).length = (splitDetails doc).length ↔
      ∀ b ∈ splitDetails doc,
        emailOf b ≠ [] ∨ passwordOf b ≠ [] ∨ isCookie b = true) :=
  ⟨fun i b => processBlock_isSome i b now,
   extractAux_length_le now 1 (splitDetails doc),
   extractAux_length_eq_iff now 1 (splitDetails doc)⟩

/-- C2 witness: the emission rule evaluated on a two-block document whose
second block yields no signal (one record, two blocks). -/
theorem C2_witness :
    ((extract_credentials_from_html c2doc ts0).length ≤ (splitDetails c2doc).length) ∧
    ((extract_credentials_from_html c2doc ts0).length ≠ (splitDetails c2doc).length) :=
  ⟨(C2_emission c2doc ts0).2.1,
   fun h => by
     have := ((C2_emission c2doc ts0).2.2.1 h) "x".data (by decide)
     exact absurd this (by decide)⟩

/-- C3: password resolution tries the `➜ Password` inline-span form, then
the first `data-copy` value with no `@` and raw length above 5, then the
`➜`-introduced bare token without `@`, the first non-empty result winning;
a block whose only two `data-copy` values are `a@b.com` and `Tr0ub4dor&3`
resolves email `a@b.com` and password `Tr0ub4dor&3` in either order. -/
theorem C3_password_order :
    (∀ b : Str,
      (passwordM1 b ≠ [] → passwordOf b = passwordM1 b) ∧
      (passwordM1 b = [] → passwordM2 b ≠ [] → passwordOf b = passwordM2 b) ∧
      (passwordM1 b = [] → passwordM2 b = [] → passwordOf b = passwordM3 b)) ∧
    emailOf bA = "a@b.com".data ∧ passwordOf bA = "Tr0ub4dor&3".data ∧
    emailOf bB = "a@b.com".data ∧ passwordOf bB = "Tr0ub4dor&3".data := by
  constructor
  · intro b
    unfold passwordOf
    refine ⟨fun h => if_pos h, fun h1 h2 => ?_, fun h1 h2 => ?_⟩
    · rw [if_neg (fun hne => hne h1), if_pos h2]
    · rw [if_neg (fun hne => hne h1), if_neg (fun hne => hne h2)]
  · exact ⟨by decide, by decide, by decide, by decide⟩

/-- C3 witness: the inline-span form wins for `bC3w`. -/
theorem C3_witness : passwordOf bC3w = passwordM1 bC3w :=
  (C3_password_order.1 bC3w).1 (by decide)

/-- C4 counterexample: the same document extracted at two different clock
readings yields different record sequences (the `retrieved_at` fields
differ), so extraction is not identical field-for-field across calls. -/
theorem C4_counterexample :
    extract_credentials_from_html c4doc ts0 ≠ extract_credentials_from_html c4doc ts1 ∧
    ts0 ≠ ts1 := by
  decide

/-- C4 (amended): extraction is deterministic given the clock reading —
two calls on the same document agree on every field except `retrieved_at`,
and each emitted record's `retrieved_at` equals the call's clock reading;
calls made at the same clock reading yield fully identical sequences. -/
theorem C4_amended (doc t1 t2 : Str) :
    (extract_credentials_from_html doc t1).map AccountInfo.core =
      (extract_credentials_from_html doc t2).map AccountInfo.core ∧
    (∀ rec ∈ extract_credentials_from_html doc t1, rec.retrieved_at = t1) := by
  constructor
  · exact extractAux_core t1 t2 1 (splitDetails doc)
  · intro rec hrec
    obtain ⟨j, b, -, hp⟩ := mem_extractAux t1 1 (splitDetails doc) rec hrec
    exact (processBlock_some hp).2.2.2.2.2

/-- C4 witness: the amended determinism evaluated on `c4doc`. -/
theorem C4_witness : c4rec.retrieved_at = ts0 :=
  (C4_amended c4doc ts0 ts1).2 c4rec (by decide)

/-- C5 counterexample: a password-only block with no cookie indicator
yields a record whose email field is the `Cookie-based login` sentinel
while its type is `Email/Password` — so the sentinel does not occur only
on `CookieBased` records, contrary to the claim. -/
theorem C5_counterexample :
    extract_credentials_from_html c5doc ts0 = [c5rec] ∧
    c5rec.email = "Cookie-based login".data ∧
    c5rec.type = "Email/Password".data := by
  decide

/-- C5 (amended): for every emitted record, the email field is the
`Cookie-based login` sentinel iff no address was resolved for the block,
regardless of the record's type; when an address was resolved the email
field equals it. -/
theorem C5_amended (i : Nat) (b now : Str) (rec : AccountInfo)
    (h : processBlock i b now = some rec) :
    (emailOf b = [] → rec.email = "Cookie-based login".data) ∧
    (emailOf b ≠ [] → rec.email = emailOf b) := by
  obtain ⟨-, he, -⟩ := processBlock_some h
  constructor
  · intro h0
    rw [he, if_neg (fun hne => hne h0)]
  · intro h0
    rw [he, if_pos h0]

/-- C5 witness: the sentinel rule evaluated on the password-only block. -/
theorem C5_witness : c5rec.email = "Cookie-based login".data :=
  (C5_amended 1 c5block ts0 c5rec (by decide)).1 (by decide)

/-- C6: the official link comes from the first `href` value containing
`official.php`; a value not starting with `http` is prefixed with the base
origin `https://www.oxaam.com/`, an absolute one passes unchanged, and a
block with no such `href` gets the `N/A` sentinel; concretely
`signup/official.php?x=1` resolves to
`https://www.oxaam.com/signup/official.php?x=1`. -/
theorem C6_official :
    (∀ (i : Nat) (b now : Str) (rec : AccountInfo),
      processBlock i b now = some rec →
      (firstMatch tryHref b = none → rec.official_website = "N/A".data) ∧
      (∀ v, firstMatch tryHref b = some v →
        rec.official_website =
          if hasPref "http".data v then v else "https://www.oxaam.com/".data ++ v)) ∧
    (extract_credentials_from_html c6doc ts0).map AccountInfo.official_website =
      ["https://www.oxaam.com/signup/official.php?x=1".data, "N/A".data] := by
  constructor
  · intro i b now rec h
    obtain ⟨-, -, -, ho, -, -⟩ := processBlock_some h
    constructor
    · intro hn
      have h0 : officialOf b = [] := by unfold officialOf; rw [hn]
      rw [ho, if_neg (fun hne => hne h0)]
    · intro v hv
      have hov : officialOf b =
          if hasPref "http".data v then v else "https://www.oxaam.com/".data ++ v := by
        unfold officialOf
        rw [hv]
      have hne : officialOf b ≠ [] := by
        rw [hov]
        split
        · next h1 =>
          intro h0
          subst h0
          exact absurd h1 (by decide)
        · intro h0
          exact absurd (List.append_eq_nil.1 h0).1 (by decide)
      rw [ho, if_pos hne, hov]
  · decide

/-- C6 witness: the `N/A` branch evaluated on the second block of `c6doc`. -/
theorem C6_witness : c6rec2.official_website = "N/A".data :=
  ((C6_official.1 2 c6b2 ts0 c6rec2 (by decide)).1) (by decide)

/-- C7: when no label is recoverable, the service name is the positional
placeholder `Service_<n>` with `n` the block's 1-based document-order
index; blocks with empty inner content are still counted; in the 3-block
document `c7doc` whose 2nd block has no label, that record's service is
`Service_2`. -/
theorem C7_placeholder :
    (∀ (i : Nat) (b now : Str) (rec : AccountInfo),
      firstMatch tryStrong b = none → processBlock i b now = some rec →
      rec.service = "Service_".data ++ natToStr i) ∧
    splitDetails c7empty = [[], "x".data] ∧
    (extract_credentials_from_html c7doc ts0).map AccountInfo.service =
      ["A".data, "Service_2".data, "C".data] := by
  refine ⟨?_, by decide, by decide⟩
  intro i b now rec hn h
  rw [(processBlock_some h).1, serviceOf_of_no_strong hn]

/-- C7 witness: the placeholder rule evaluated on the unlabeled block. -/
theorem C7_witness : c7rec2.service = "Service_".data ++ natToStr 2 :=
  C7_placeholder.1 2 c7b2 ts0 c7rec2 (by decide) (by decide)

/-- C8: an input with no case-insensitive occurrence of `<details` —
including the empty string and arbitrary malformed text — yields zero
blocks and the empty record sequence, with no fault (the extractor is a
total function). -/
theorem C8_no_blocks (doc now : Str)
    (h : hasSub "<details".data (lowerL doc) = false) :
    extract_credentials_from_html doc now = [] := by
  unfold extract_credentials_from_html splitDetails
  rw [splitDetailsAux_none doc.length doc h]
  rfl

/-- C8 witness: the empty document and a malformed fragment both extract
to the empty sequence. -/
theorem C8_witness :
    extract_credentials_from_html [] ts0 = [] ∧
    extract_credentials_from_html "<html><deta>junk".data ts0 = [] :=
  ⟨C8_no_blocks [] ts0 (by decide),
   C8_no_blocks "<html><deta>junk".data ts0 (by decide)⟩

/-- C9: a fault raised while processing one block is caught at that
block's boundary: removing the faulting blocks leaves the output of
`runBlocks` unchanged (they contribute no record and no propagated error),
and the actual extractor is the fault-free instance of that loop. -/
theorem C9_skip_and_continue :
    (∀ (f : Nat × Str → Except Unit (Option AccountInfo)) (bs : List (Nat × Str)),
      runBlocks f bs = runBlocks f (bs.filter (fun ib => isOkE (f ib)))) ∧
    (∀ doc now : Str,
      extract_credentials_from_html doc now =
        runBlocks (fun ib => Except.ok (processBlock ib.1 ib.2 now))
          (withIdx 1 (splitDetails doc))) :=
  ⟨fun f bs => runBlocks_filter f bs,
   fun doc now => extractAux_eq_runBlocks now 1 (splitDetails doc)⟩

/-- C10 counterexample: the block of `c10doc` carries a whitespace-only
`<strong>` label, so the emitted record's service field is the empty
string — not all six fields are non-empty. -/
theorem C10_counterexample :
    extract_credentials_from_html c10doc ts0 = [c10rec] ∧
    c10rec.service = [] := by
  decide

/-- C10 (amended): every emitted record has all six fields bound; email,
password and official_website are non-empty (sentinels replace absent
values), the type is exactly one of the two literals, and `retrieved_at`
is non-empty whenever the clock string is; the service field alone may be
empty, and only when a recovered label strips to the empty string. -/
theorem C10_amended (doc now : Str) (rec : AccountInfo)
    (hmem : rec ∈ extract_credentials_from_html doc now) (hnow : now ≠ []) :
    rec.email ≠ [] ∧ rec.password ≠ [] ∧ rec.official_website ≠ [] ∧
    rec.retrieved_at ≠ [] ∧
    (rec.type = "Cookie-based".data ∨ rec.type = "Email/Password".data) := by
  obtain ⟨j, b, -, hp⟩ := mem_extractAux now 1 (splitDetails doc) rec hmem
  obtain ⟨-, he, hpw, ho, ht, hr⟩ := processBlock_some hp
  refine ⟨?_, ?_, ?_, ?_, ?_⟩
  · rw [he]
    split
    · next h1 => exact h1
    · decide
  · rw [hpw]
    split
    · next h1 => exact h1
    · decide
  · rw [ho]
    split
    · next h1 => exact h1
    · decide
  · rw [hr]
    exact hnow
  · rw [ht]
    split
    · exact Or.inl rfl
    · exact Or.inr rfl

/-- C10 witness: field totality evaluated on the record of `c10doc`. -/
theorem C10_witness : c10rec.email ≠ [] :=
  (C10_amended c10doc ts0 c10rec (by decide) (by decide)).1

end Oxaam
